import Mathlib

/-!
Verification of the merge-and-refine DDI pipeline:
`backend/services/gemini_service.py`, `backend/routes/predict.py`,
`backend/utils/preprocess.py`.

Python dicts with possibly-missing keys are embedded as structures with
`Option`-valued fields; `dict.get k default` becomes `Option.getD`,
`dict[k]` on keys that every construction site populates becomes the field
itself (with Python `None` rendered by `pyStr`).  Floats (`confidence`,
`safety_score`) are embedded as `ℚ`: only their ordering and equality are
used by the code under verification, never float arithmetic.
-/

/-- Explanation record (`{"explanation_type": ..., "explanation_text": ...,
"severity_contribution": ...}`).  Fields are `Option` because adversarial
Gemini JSON may omit any key, and `gemini_service.py:306` stores a possibly
absent `explanation_text`. -/
structure Explanation where
  explanation_type : Option String
  explanation_text : Option String
  severity_contribution : Option String
deriving Repr, DecidableEq, Inhabited

/-- Recommendation record as built throughout the pipeline. -/
structure Recommendation where
  alternative_drug : Option String
  reason : Option String
  safety_score : Option ℚ
  medical_condition : Option String
deriving Repr, DecidableEq, Inhabited

/-- The prediction-result dict flowing through the pipeline
(`ddi_service.predict_interaction` response shape).  `side_effect_overlap`
and `analyzed_drugs` are absent from the initial response and only added by
later stages; absence is represented by `[]`, matching every truthiness /
`len(...) == 0` test performed on them in the source. -/
structure PredictionResult where
  interaction : String
  confidence : ℚ
  risk_level : String
  severity : String
  interaction_summary : String
  warnings : String
  disclaimer : String
  explanations : List Explanation
  recommendations : List Recommendation
  side_effect_overlap : List String
  analyzed_drugs : List String
deriving Repr, DecidableEq, Inhabited

/-- A Gemini recommendation entry: the merge code (`gemini_service.py:323`)
distinguishes `str` entries, `dict` entries, and silently skips anything
else (`other`). -/
inductive GRec where
  | str (s : String)
  | dict (alternative_drug : Option String) (reason : Option String)
      (safety_score : Option ℚ) (medical_condition : Option String)
  | other
deriving Repr, DecidableEq, Inhabited

/-- Parsed Gemini JSON (`refined_data`).  Every field may be absent; the
classification fields are present so that an adversarial response supplying
them can be quantified over.  A field whose JSON value is not of the
expected type behaves exactly like an absent field at each use site
(`refined.get(k) and isinstance(...)`), so `none` also covers those. -/
structure RefinedResponse where
  interaction : Option String
  confidence : Option ℚ
  risk_level : Option String
  severity : Option String
  interaction_summary : Option String
  warnings : Option String
  side_effect_overlap : Option (List String)
  explanations : Option (List Explanation)
  recommendations : Option (List GRec)
deriving Repr, DecidableEq, Inhabited

/-- Python `f"{x}"` for an optional string (`None` renders as `"None"`). -/
def pyStr : Option String → String
  | some s => s
  | none => "None"

/-- Python `str.lower()` (character-wise; structural so that it evaluates
in the kernel, unlike position-recursive `String.toLower`). -/
def lowerStr (s : String) : String := ⟨s.data.map Char.toLower⟩

def isWsChar (c : Char) : Bool := c.isWhitespace

/-- Python `str.strip()`: drop leading and trailing whitespace. -/
def trimStr (s : String) : String :=
  ⟨((s.data.dropWhile isWsChar).reverse.dropWhile isWsChar).reverse⟩

/-- Sublist-of test on character lists. -/
def subList (needle : List Char) : List Char → Bool
  | [] => needle.isEmpty
  | c :: t => List.isPrefixOf needle (c :: t) || subList needle t

/-- Substring test (Python `needle in hay`). -/
def strContains (hay needle : String) : Bool :=
  subList needle.data hay.data

/-- The placeholder-marker test of `gemini_service.py:281-283`:
`"unknown" in text or "not available" in text or "no specific" in text`
on the lower-cased text. -/
def hasPlaceholderMarker (t : String) : Bool :=
  let s := lowerStr t
  strContains s "unknown" || strContains s "not available" || strContains s "no specific"

/-- Distinct elements of a list, first occurrence first — the key order of a
Python dict built by comprehension, and the contents of `set(...)`. -/
def firstOccs : List String → List String → List String
  | [], _ => []
  | k :: ks, seen => if k ∈ seen then firstOccs ks seen else k :: firstOccs ks (k :: seen)

namespace GeminiService

/-- `required_types` (`gemini_service.py:260`). -/
def required_types : List String := ["drug_class", "side_effect", "pregnancy", "alcohol"]

/-- The dict-comprehension key `exp.get("explanation_type", "general").lower()`. -/
def typeKey (e : Explanation) : String :=
  lowerStr (e.explanation_type.getD "general")

/-- Lookup in the Python dict comprehension
`{typeKey exp: exp for exp in es}`: the last entry with the key wins. -/
def lookupLast (es : List Explanation) (k : String) : Option Explanation :=
  (es.filter (fun e => typeKey e == k)).getLast?

/-- Builder shared by the two `use_gemini` branches of the canonical-type
loop (`gemini_service.py:286-299`). -/
def buildFromGemini (t : String) (g : Explanation) : Explanation :=
  { explanation_type := some t
    explanation_text := some (g.explanation_text.getD "Detailed information provided by clinical AI.")
    severity_contribution := some (g.severity_contribution.getD "Low") }

/-- One iteration of the canonical-type loop (`gemini_service.py:268-299`)
deciding what to append for canonical type `t`. -/
def pick_canonical (orig ges : List Explanation) (t : String) : Option Explanation :=
  let origExp := lookupLast orig t
  let gExp := lookupLast ges t
  let useGemini : Bool :=
    match origExp with
    | none => true
    | some oe => hasPlaceholderMarker (oe.explanation_text.getD "")
  if useGemini then
    match gExp with
    | some g => some (buildFromGemini t g)
    | none =>
      match origExp with
      | some oe => some oe
      | none => none
  else
    match origExp with
    | some oe => some oe
    | none =>
      match gExp with
      | some g => some (buildFromGemini t g)
      | none => none

/-- The trailing loop appending Gemini's non-canonical types
(`gemini_service.py:301-308`). -/
def gemini_extras (ges : List Explanation) : List Explanation :=
  (firstOccs (ges.map typeKey) []).filterMap (fun k =>
    if k ∈ required_types then none
    else
      match lookupLast ges k with
      | some g => some
          { explanation_type := some (g.explanation_type.getD "general")
            explanation_text := g.explanation_text
            severity_contribution := some (g.severity_contribution.getD "Low") }
      | none => none)

/-- `final_explanations` (`gemini_service.py:249-310`) for a truthy Gemini
explanation list. -/
def merge_explanations (orig ges : List Explanation) : List Explanation :=
  (required_types.filterMap (pick_canonical orig ges)) ++ gemini_extras ges

/-- Python truthy update: `if refined.get(k): merged[k] = refined[k]`. -/
def updStr (cur : String) (new : Option String) : String :=
  match new with
  | some s => if s = "" then cur else s
  | none => cur

/-- Recommendation normalization loop (`gemini_service.py:322-338`). -/
def normalize_recs (grecs : List GRec) : List Recommendation :=
  grecs.filterMap (fun gr =>
    match gr with
    | .str s => some
        { alternative_drug := some "Consult Doctor", reason := some s
          safety_score := some 0, medical_condition := some "N/A" }
    | .dict ad r ss mc => some
        { alternative_drug := some (ad.getD "Alternative")
          reason := some (r.getD "Better safety profile.")
          safety_score := some (ss.getD (4/5)), medical_condition := some (mc.getD "N/A") }
    | .other => none)

/-- `GeminiService._merge_results` (`gemini_service.py:228-342`). -/
def merge_results (original : PredictionResult) (refined : RefinedResponse) : PredictionResult :=
  { original with
    interaction := original.interaction
    confidence := original.confidence
    risk_level := original.risk_level
    severity := original.severity
    interaction_summary := updStr original.interaction_summary refined.interaction_summary
    warnings := updStr original.warnings refined.warnings
    explanations :=
      match refined.explanations with
      | some ges => if ges = [] then original.explanations
                    else merge_explanations original.explanations ges
      | none => original.explanations
    side_effect_overlap :=
      match refined.side_effect_overlap with
      | some l =>
        if l = [] then original.side_effect_overlap
        else
          let side_effects := (l.filter (fun se => se ≠ "" && trimStr se ≠ "")).map (fun se => trimStr se)
          if side_effects = [] then original.side_effect_overlap else side_effects
      | none => original.side_effect_overlap
    recommendations :=
      match refined.recommendations with
      | some grecs =>
        if grecs = [] then original.recommendations
        else
          let valid_recs := normalize_recs grecs
          if valid_recs = [] then original.recommendations else valid_recs
      | none => original.recommendations }

/-- The fallback "Precautionary" explanation (`gemini_service.py:368-372`). -/
def precautionaryText : String :=
  "Detailed interaction mechanism is not currently available in the database, but caution is advised based on predictive modeling."

/-- `GeminiService._apply_local_fallback` (`gemini_service.py:344-397`). -/
def apply_local_fallback (data : PredictionResult) (drug1 drug2 : String) : PredictionResult :=
  { data with
    interaction_summary :=
      if data.interaction_summary = "" then
        "The deep learning model has analyzed the properties of " ++ drug1 ++ " and " ++ drug2 ++
        ". Based on structural similarity and known patterns, the interaction risk is classified as " ++
        data.risk_level ++ "."
      else data.interaction_summary
    warnings :=
      if data.warnings = "" then
        "Concurrent use of " ++ drug1 ++ " and " ++ drug2 ++
        " should be monitored. Consult a healthcare professional for specific advice."
      else data.warnings
    explanations :=
      if data.explanations = [] then
        [{ explanation_type := some "Precautionary"
           explanation_text := some precautionaryText
           severity_contribution := some data.severity }]
      else data.explanations
    recommendations :=
      if data.recommendations = [] then
        [{ alternative_drug := some "Consult Healthcare Provider"
           reason := some "Please consult a pharmacist or physician for suitable alternatives based on your specific medical condition."
           safety_score := some 0, medical_condition := some "General" }]
      else data.recommendations
    side_effect_overlap :=
      if data.side_effect_overlap = [] then ["Dizziness", "Nausea", "Headache", "Fatigue"]
      else data.side_effect_overlap }

/-- Outcome of the enrichment try-block of `validate_and_refine`
(`gemini_service.py:84-141`): a well-typed parsed response, or one of the
failure modes (any exception raised inside the block — network failure,
API error, a non-dict entry crashing the merge —, an empty `response.text`
which raises `ValueError`, or a `json.JSONDecodeError`). -/
inductive EnrichOutcome where
  | ok (refined : RefinedResponse)
  | throws
  | emptyText
  | jsonError
deriving Repr, DecidableEq, Inhabited

/-- The try-block itself: produces the merged result or the caught error. -/
def attempt_refine (outcome : EnrichOutcome) (data : PredictionResult) : Except String PredictionResult :=
  match outcome with
  | .ok refined => .ok (merge_results data refined)
  | .throws => .error "exception"
  | .emptyText => .error "Empty response from Gemini"
  | .jsonError => .error "JSONDecodeError"

/-- Failure outcomes (everything the except-clauses catch). -/
def EnrichOutcome.isFailure : EnrichOutcome → Bool
  | .ok _ => false
  | _ => true

/-- `GeminiService.validate_and_refine` (`gemini_service.py:63-141`):
`configured` is `self.model is not None`. -/
def validate_and_refine (configured : Bool) (outcome : EnrichOutcome)
    (data : PredictionResult) (drug1 drug2 : String) : PredictionResult :=
  if configured then
    match attempt_refine outcome data with
    | .ok r => r
    | .error _ => apply_local_fallback data drug1 drug2
  else apply_local_fallback data drug1 drug2

end GeminiService

namespace Preprocess

/-- Whitespace collapsing: `re.sub(r'\s+', ' ', s)` — each maximal run of
whitespace becomes a single space. -/
def collapseRun : Bool → List Char → List Char
  | _, [] => []
  | prevWs, c :: cs =>
    if isWsChar c then
      if prevWs then collapseRun true cs else ' ' :: collapseRun true cs
    else c :: collapseRun false cs

def collapseWs (s : String) : String := ⟨collapseRun false s.data⟩

/-- `normalize_drug_name` (`preprocess.py:8-27`). -/
def normalize_drug_name (name : String) : String :=
  if name = "" then "" else collapseWs (trimStr (lowerStr name))

/-- `validate_drug_input` (`preprocess.py:30-56`), boolean component of the
returned `(is_valid, error_message)` pair (the route discards the message). -/
def validate_drug_input (drug1 drug2 : String) : Bool :=
  if drug1 = "" || trimStr drug1 = "" then false
  else if drug2 = "" || trimStr drug2 = "" then false
  else if normalize_drug_name drug1 = normalize_drug_name drug2 then false
  else if drug1.length > 200 || drug2.length > 200 then false
  else true

end Preprocess

namespace Predict

/-- `risk_priority.get(x, 0)` with `{"High": 3, "Moderate": 2, "Low": 1, "None": 0}`
(`predict.py:177`). -/
def risk_priority (s : String) : ℕ :=
  if s = "High" then 3 else if s = "Moderate" then 2 else if s = "Low" then 1 else 0

abbrev SortKey := ℕ × ℕ × ℚ

/-- The sort key tuple of `predict.py:181-185`. -/
def keyOf (r : PredictionResult) : SortKey :=
  ((if r.interaction = "Yes" then 1 else 0), risk_priority r.risk_level, r.confidence)

/-- Python lexicographic `<` on the key tuples. -/
def keyLT (a b : SortKey) : Prop :=
  a.1 < b.1 ∨ (a.1 = b.1 ∧ (a.2.1 < b.2.1 ∨ (a.2.1 = b.2.1 ∧ a.2.2 < b.2.2)))

def keyLE (a b : SortKey) : Prop := keyLT a b ∨ a = b

instance (a b : SortKey) : Decidable (keyLT a b) := by unfold keyLT; infer_instance

instance (a b : SortKey) : Decidable (keyLE a b) := by unfold keyLE; infer_instance

/-- A per-pair entry of `results` (`predict.py:160-163`): the pair and its
prediction. -/
abbrev PairResult := (String × String) × PredictionResult

/-- Descending-by-key order used by `sorted(results, key=..., reverse=True)`:
`x` may come before `y` iff `key x ≥ key y`.  A stable sort with this total
preorder is exactly Python's stable `sorted(..., reverse=True)`. -/
def rGE (x y : PairResult) : Prop := keyLE (keyOf y.2) (keyOf x.2)

instance : DecidableRel rGE := fun x y => by unfold rGE; infer_instance

/-- `sorted_results[0]` — the Worst-Case Selector (`predict.py:179-190`). -/
def worst_case_of (results : List PairResult) : Option PairResult :=
  (List.insertionSort rGE results).head?

/-- Modelled from the spec: "Stable sort by this key, descending; the first
element is the representative result.  Ties are broken by input order (first
pair wins)" — the first element of the list whose key no later element
strictly exceeds. -/
def specFirstWorst : List PairResult → Option PairResult
  | [] => none
  | x :: xs =>
    match specFirstWorst xs with
    | none => some x
    | some m => if keyLT (keyOf x.2) (keyOf m.2) then some m else some x

/-- Code-point lexicographic `<` on character lists (Python string order). -/
def charListLt : List Char → List Char → Bool
  | [], [] => false
  | [], _ :: _ => true
  | _ :: _, [] => false
  | a :: as, b :: bs => a < b || (a = b && charListLt as bs)

/-- String comparison used by Python's `sorted` over `set(drugs)`
(code-point lexicographic). -/
def strLe (a b : String) : Prop := charListLt a.data b.data = true ∨ a = b

instance (a b : String) : Decidable (strLe a b) := by unfold strLe; infer_instance

/-- `itertools.combinations(l, 2)` (`predict.py:144`). -/
def combinations2 : List String → List (String × String)
  | [] => []
  | x :: xs => (xs.map (fun y => (x, y))) ++ combinations2 xs

/-- The two HTTP 400 client errors of the analyze operation, plus the
unhandled-exception escape (`predict.py` has no generic except around the
prediction loop: only `except HTTPException: raise`). -/
inductive AnalyzeError where
  | insufficientDrugs
  | noValidPairs
  | internal (msg : String)
deriving Repr, DecidableEq

/-- `drugs = [d for d in [drug1..drug5] if d and d.strip()]` (`predict.py:132`). -/
def blank_filtered (input : List (Option String)) : List String :=
  input.filterMap (fun od =>
    match od with
    | some d => if d ≠ "" && trimStr d ≠ "" then some d else none
    | none => none)

/-- `unique_drugs = sorted(list(set(drugs)))` (`predict.py:135`). -/
def unique_sorted (input : List (Option String)) : List String :=
  List.insertionSort strLe (firstOccs (blank_filtered input) [])

/-- The prediction loop (`predict.py:146-163`): pairs failing
`validate_drug_input` are skipped; a classifier exception propagates
(there is no per-pair except clause). -/
def collect_results (P : String → String → Except String PredictionResult) :
    List (String × String) → Except String (List PairResult)
  | [] => .ok []
  | (d1, d2) :: rest =>
    if Preprocess.validate_drug_input d1 d2 then
      match P d1 d2 with
      | .error e => .error e
      | .ok r =>
        match collect_results P rest with
        | .error e => .error e
        | .ok rs => .ok (((d1, d2), r) :: rs)
    else collect_results P rest

/-- Pair label prefixing of an explanation (`predict.py:209-211`). -/
def relabelExp (d1 d2 : String) (e : Explanation) : Explanation :=
  { e with explanation_text := some ("[" ++ d1 ++ " + " ++ d2 ++ "] " ++ pyStr e.explanation_text) }

/-- Pair label prefixing of a recommendation reason (`predict.py:215-217`). -/
def relabelRec (d1 d2 : String) (r : Recommendation) : Recommendation :=
  { r with reason := some ("[" ++ d1 ++ " + " ++ d2 ++ "] " ++ pyStr r.reason) }

/-- One bullet line of the multi-pair summary (`predict.py:231`); the bullet
bytes are as they appear in the source file. -/
def interactionLine (item : PairResult) : String :=
  "‚Ä¢ " ++ item.1.1 ++ " + " ++ item.1.2 ++ ": " ++ item.2.risk_level ++ " Risk Detected"

/-- The Cross-Pair Aggregator (`predict.py:192-258`), applied to the
descending-sorted per-pair results; `numPairs = len(pairs)` counts all
candidate pairs, including ones dropped by validation. -/
def aggregate (unique_drugs : List String) (numPairs : ℕ)
    (sorted_results : List PairResult) : PredictionResult :=
  match sorted_results with
  | [] => default
  | w :: rest =>
    let worst1 :=
      if (w :: rest).length > 1 then
        { w.2 with
          explanations :=
            ((w :: rest).map (fun item => item.2.explanations.map (relabelExp item.1.1 item.1.2))).flatten
          recommendations :=
            ((w :: rest).map (fun item => item.2.recommendations.map (relabelRec item.1.1 item.1.2))).flatten }
      else w.2
    let found_interactions := (w :: rest).filter (fun x => x.2.interaction = "Yes")
    let multi_summary :=
      if found_interactions = [] then
        "Analyzed " ++ toString numPairs ++ " pairs from " ++ toString unique_drugs.length ++ " drugs.\n" ++
        "‚úÖ No significant interactions detected among any combination."
      else
        "Analyzed " ++ toString numPairs ++ " pairs from " ++ toString unique_drugs.length ++ " drugs.\n" ++
        "‚ö†Ô∏è DETECTED " ++ toString found_interactions.length ++ " INTERACTION(S):\n" ++
        String.intercalate "\n" (found_interactions.map interactionLine)
    let worst2 := { worst1 with interaction_summary := multi_summary ++ "\n\n" ++ worst1.interaction_summary }
    let worst3 :=
      if (w :: rest).length > 1 then
        { worst2 with warnings :=
            "NOTE: Analysis covers all combinations of: " ++ String.intercalate ", " unique_drugs ++ ".\n" ++
            "Primary risk shown for: " ++ w.1.1 ++ " + " ++ w.1.2 ++ "." ++ "\n\n" ++ worst2.warnings }
      else worst2
    { worst3 with analyzed_drugs := unique_drugs }

/-- The analyze operation `POST /predict` (`predict.py:131-258`), abstracted
over the per-pair classifier `P` (`ddi_service.predict_interaction`, which
may raise).  The five request slots are `drug1..drug5`. -/
def analyze (P : String → String → Except String PredictionResult)
    (input : List (Option String)) : Except AnalyzeError PredictionResult :=
  let unique_drugs := unique_sorted input
  if unique_drugs.length < 2 then .error .insufficientDrugs
  else
    let pairs := combinations2 unique_drugs
    match collect_results P pairs with
    | .error e => .error (.internal e)
    | .ok [] => .error .noValidPairs
    | .ok [single] => .ok single.2
    | .ok (r1 :: r2 :: rs) =>
        .ok (aggregate unique_drugs pairs.length (List.insertionSort rGE (r1 :: r2 :: rs)))

end Predict

/-! ### Helper lemmas and sample data -/

lemma str_append_ne (a b : String) (h : a ≠ "") : a ++ b ≠ "" := by
  intro hc
  apply h
  have hd := congrArg String.data hc
  rw [String.data_append] at hd
  cases a with | mk da =>
  simp at hd
  simp [hd.1]

/-- A concrete prediction result used by witnesses and counterexamples. -/
def sampleResult : PredictionResult :=
  { interaction := "Yes", confidence := 1, risk_level := "High", severity := "Severe"
    interaction_summary := "s", warnings := "w", disclaimer := "d"
    explanations := [], recommendations := [], side_effect_overlap := [], analyzed_drugs := [] }

/-- `sampleResult` with an empty summary. -/
def sampleEmptySummary : PredictionResult := { sampleResult with interaction_summary := "" }

/-- A parsed Gemini response supplying nothing (e.g. the JSON object `{}`). -/
def emptyRefined : RefinedResponse :=
  { interaction := none, confidence := none, risk_level := none, severity := none
    interaction_summary := none, warnings := none, side_effect_overlap := none
    explanations := none, recommendations := none }

namespace GeminiService

/-- On any failure (service unconfigured or any caught exception),
`validate_and_refine` returns exactly the local fallback. -/
lemma vr_failure_eq (configured : Bool) (outcome : EnrichOutcome)
    (data : PredictionResult) (d1 d2 : String)
    (h : configured = false ∨ outcome.isFailure = true) :
    validate_and_refine configured outcome data d1 d2 = apply_local_fallback data d1 d2 := by
  cases configured with
  | false => simp [validate_and_refine]
  | true =>
    cases outcome with
    | ok refined => simp [EnrichOutcome.isFailure] at h
    | throws => simp [validate_and_refine, attempt_refine]
    | emptyText => simp [validate_and_refine, attempt_refine]
    | jsonError => simp [validate_and_refine, attempt_refine]

lemma fallback_summary_ne (data : PredictionResult) (d1 d2 : String) :
    (apply_local_fallback data d1 d2).interaction_summary ≠ "" := by
  unfold apply_local_fallback
  by_cases h : data.interaction_summary = ""
  · simp [h]
    repeat apply str_append_ne
    decide
  · simp [h]

lemma fallback_warnings_ne (data : PredictionResult) (d1 d2 : String) :
    (apply_local_fallback data d1 d2).warnings ≠ "" := by
  unfold apply_local_fallback
  by_cases h : data.warnings = ""
  · simp [h]
    repeat apply str_append_ne
    decide
  · simp [h]

lemma fallback_lists_ne (data : PredictionResult) (d1 d2 : String) :
    (apply_local_fallback data d1 d2).explanations ≠ [] ∧
    (apply_local_fallback data d1 d2).recommendations ≠ [] ∧
    (apply_local_fallback data d1 d2).side_effect_overlap ≠ [] := by
  unfold apply_local_fallback
  refine ⟨?_, ?_, ?_⟩
  · by_cases h : data.explanations = [] <;> simp [h]
  · by_cases h : data.recommendations = [] <;> simp [h]
  · by_cases h : data.side_effect_overlap = [] <;> simp [h]

end GeminiService

/-! ### C1 -/

/-- C1: for every prediction result processed by the Refinement Layer, and
every possible enrichment response (including adversarial or malformed
ones), the `interaction`, `confidence`, `risk_level` and `severity` fields
of the returned result equal their values in the pre-refinement input, on
the successful merge path, the local-fallback path, and the exception path
alike; no code path lets the external response override them. -/
theorem c1_refinement_preserves_classification
    (configured : Bool) (outcome : GeminiService.EnrichOutcome)
    (data : PredictionResult) (d1 d2 : String) :
    (GeminiService.validate_and_refine configured outcome data d1 d2).interaction = data.interaction ∧
    (GeminiService.validate_and_refine configured outcome data d1 d2).confidence = data.confidence ∧
    (GeminiService.validate_and_refine configured outcome data d1 d2).risk_level = data.risk_level ∧
    (GeminiService.validate_and_refine configured outcome data d1 d2).severity = data.severity := by
  cases configured <;> cases outcome <;>
    simp [GeminiService.validate_and_refine, GeminiService.attempt_refine,
      GeminiService.merge_results, GeminiService.apply_local_fallback]

/-! ### C6 -/

/-- C6: for every enrichment failure — service not configured, service
unreachable/raising, empty response, or malformed/unparseable response —
the Refinement Layer catches the error and returns the local-fallback
result built from the original prediction and the two drug names; a raw
external-service error is never propagated (the total function returns a
`PredictionResult`, never an error, and equals the fallback). -/
theorem c6_enrichment_failure_falls_back
    (configured : Bool) (outcome : GeminiService.EnrichOutcome)
    (data : PredictionResult) (d1 d2 : String)
    (h : configured = false ∨ outcome.isFailure = true) :
    GeminiService.validate_and_refine configured outcome data d1 d2 =
      GeminiService.apply_local_fallback data d1 d2 :=
  GeminiService.vr_failure_eq configured outcome data d1 d2 h

theorem c6_witness :
    (false = false ∨ GeminiService.EnrichOutcome.throws.isFailure = true) ∧
    GeminiService.validate_and_refine true GeminiService.EnrichOutcome.throws sampleResult "Aspirin" "Warfarin" =
      GeminiService.apply_local_fallback sampleResult "Aspirin" "Warfarin" :=
  ⟨Or.inl rfl,
   c6_enrichment_failure_falls_back true GeminiService.EnrichOutcome.throws sampleResult
     "Aspirin" "Warfarin" (Or.inr rfl)⟩

/-! ### C2 -/

/-- C2 counterexample: on the successful merge path, a Gemini response
that parses but supplies nothing (the JSON object with no truthy fields)
leaves an empty original summary empty — refuting non-emptiness "for every
input prediction whether by the successful merge path or fallback". -/
theorem c2_counterexample :
    (GeminiService.validate_and_refine true (GeminiService.EnrichOutcome.ok emptyRefined)
        sampleEmptySummary "Aspirin" "Warfarin").interaction_summary = "" := rfl

/-- C2 amended: after the Refinement Layer completes **by the local
fallback path** (service disabled or any enrichment failure), `summary`
and `warnings` are non-empty strings and `explanations`,
`recommendations`, `side_effect_overlap` are non-empty lists, for every
input prediction result.  (The successful merge path does not guarantee
this, per the counterexample.) -/
theorem c2_fallback_non_empty
    (configured : Bool) (outcome : GeminiService.EnrichOutcome)
    (data : PredictionResult) (d1 d2 : String)
    (h : configured = false ∨ outcome.isFailure = true) :
    (GeminiService.validate_and_refine configured outcome data d1 d2).interaction_summary ≠ "" ∧
    (GeminiService.validate_and_refine configured outcome data d1 d2).warnings ≠ "" ∧
    (GeminiService.validate_and_refine configured outcome data d1 d2).explanations ≠ [] ∧
    (GeminiService.validate_and_refine configured outcome data d1 d2).recommendations ≠ [] ∧
    (GeminiService.validate_and_refine configured outcome data d1 d2).side_effect_overlap ≠ [] := by
  rw [GeminiService.vr_failure_eq configured outcome data d1 d2 h]
  exact ⟨GeminiService.fallback_summary_ne data d1 d2, GeminiService.fallback_warnings_ne data d1 d2,
    (GeminiService.fallback_lists_ne data d1 d2).1, (GeminiService.fallback_lists_ne data d1 d2).2.1,
    (GeminiService.fallback_lists_ne data d1 d2).2.2⟩

theorem c2_witness :
    (false = false ∨ GeminiService.EnrichOutcome.jsonError.isFailure = true) ∧
    ((GeminiService.validate_and_refine true GeminiService.EnrichOutcome.jsonError
        sampleEmptySummary "Aspirin" "Warfarin").interaction_summary ≠ "" ∧
     (GeminiService.validate_and_refine true GeminiService.EnrichOutcome.jsonError
        sampleEmptySummary "Aspirin" "Warfarin").warnings ≠ "" ∧
     (GeminiService.validate_and_refine true GeminiService.EnrichOutcome.jsonError
        sampleEmptySummary "Aspirin" "Warfarin").explanations ≠ [] ∧
     (GeminiService.validate_and_refine true GeminiService.EnrichOutcome.jsonError
        sampleEmptySummary "Aspirin" "Warfarin").recommendations ≠ [] ∧
     (GeminiService.validate_and_refine true GeminiService.EnrichOutcome.jsonError
        sampleEmptySummary "Aspirin" "Warfarin").side_effect_overlap ≠ []) :=
  ⟨Or.inl rfl,
   c2_fallback_non_empty true GeminiService.EnrichOutcome.jsonError sampleEmptySummary
     "Aspirin" "Warfarin" (Or.inr rfl)⟩

/-! ### C7 -/

/-- C7 counterexample: with the enrichment service throwing on every call
and a prediction holding no explanations, the final result has a single
"Precautionary" explanation — not the 4 canonical types; in particular no
`drug_class` explanation exists. -/
theorem c7_counterexample :
    (GeminiService.validate_and_refine true GeminiService.EnrichOutcome.throws
        sampleResult "Aspirin" "Warfarin").explanations.map GeminiService.typeKey = ["precautionary"] ∧
    "drug_class" ∉ (GeminiService.validate_and_refine true GeminiService.EnrichOutcome.throws
        sampleResult "Aspirin" "Warfarin").explanations.map GeminiService.typeKey := by
  constructor
  · rfl
  · decide

/-- C7 amended: if the enrichment service throws on every call, the final
result's explanations are sourced entirely from the local fallback: when
the original had none, they consist of exactly one "Precautionary"
explanation carrying the fixed fallback text, which is non-placeholder;
no canonical-type explanations are generated. -/
theorem c7_fallback_single_precautionary
    (data : PredictionResult) (d1 d2 : String) (h : data.explanations = []) :
    (GeminiService.validate_and_refine true GeminiService.EnrichOutcome.throws data d1 d2).explanations =
      [{ explanation_type := some "Precautionary"
         explanation_text := some GeminiService.precautionaryText
         severity_contribution := some data.severity }] ∧
    hasPlaceholderMarker GeminiService.precautionaryText = false ∧
    ∀ e ∈ (GeminiService.validate_and_refine true GeminiService.EnrichOutcome.throws data d1 d2).explanations,
      GeminiService.typeKey e ∉ GeminiService.required_types := by
  have hv : GeminiService.validate_and_refine true GeminiService.EnrichOutcome.throws data d1 d2 =
      GeminiService.apply_local_fallback data d1 d2 := GeminiService.vr_failure_eq _ _ _ _ _ (Or.inr rfl)
  rw [hv]
  have hexp : (GeminiService.apply_local_fallback data d1 d2).explanations =
      [{ explanation_type := some "Precautionary"
         explanation_text := some GeminiService.precautionaryText
         severity_contribution := some data.severity }] := by
    unfold GeminiService.apply_local_fallback
    simp [h]
  refine ⟨hexp, by decide, ?_⟩
  rw [hexp]
  intro e he
  simp at he
  subst he
  have ht : GeminiService.typeKey
      { explanation_type := some "Precautionary"
        explanation_text := some GeminiService.precautionaryText
        severity_contribution := some data.severity } = "precautionary" := rfl
  rw [ht]
  decide

theorem c7_witness :
    sampleResult.explanations = [] ∧
    ((GeminiService.validate_and_refine true GeminiService.EnrichOutcome.throws
        sampleResult "a" "b").explanations =
      [{ explanation_type := some "Precautionary"
         explanation_text := some GeminiService.precautionaryText
         severity_contribution := some sampleResult.severity }] ∧
     hasPlaceholderMarker GeminiService.precautionaryText = false ∧
     ∀ e ∈ (GeminiService.validate_and_refine true GeminiService.EnrichOutcome.throws
        sampleResult "a" "b").explanations,
       GeminiService.typeKey e ∉ GeminiService.required_types) :=
  ⟨rfl, c7_fallback_single_precautionary sampleResult "a" "b" rfl⟩

/-! ### C10 -/

namespace GeminiService

lemma lookupLast_typeKey (es : List Explanation) (k : String) (e : Explanation)
    (h : lookupLast es k = some e) : typeKey e = k := by
  unfold lookupLast at h
  have hm : e ∈ es.filter (fun x => typeKey x == k) := List.mem_of_mem_getLast? h
  have := (List.mem_filter.mp hm).2
  exact eq_of_beq this

lemma lower_canonical (t : String) (ht : t ∈ required_types) : lowerStr t = t := by
  simp only [required_types, List.mem_cons, List.mem_singleton, List.not_mem_nil, or_false] at ht
  rcases ht with rfl | rfl | rfl | rfl <;> decide

lemma typeKey_buildFromGemini (t : String) (g : Explanation) :
    typeKey (buildFromGemini t g) = lowerStr t := rfl

lemma typeKey_pick (orig ges : List Explanation) (t : String) (ht : t ∈ required_types)
    (e : Explanation) (h : pick_canonical orig ges t = some e) : typeKey e = t := by
  unfold pick_canonical at h
  cases ho : lookupLast orig t with
  | none =>
    cases hgx : lookupLast ges t with
    | none => simp [ho, hgx] at h
    | some g =>
      simp only [ho, hgx] at h
      cases h
      rw [typeKey_buildFromGemini, lower_canonical t ht]
  | some oe =>
    cases hgx : lookupLast ges t with
    | none =>
      simp only [ho, hgx] at h
      by_cases hp : hasPlaceholderMarker (oe.explanation_text.getD "") = true <;>
        simp [hp] at h <;> rw [← h] <;> exact lookupLast_typeKey orig t oe ho
    | some g =>
      simp only [ho, hgx] at h
      by_cases hp : hasPlaceholderMarker (oe.explanation_text.getD "") = true
      · simp [hp] at h
        rw [← h, typeKey_buildFromGemini, lower_canonical t ht]
      · simp [hp] at h
        rw [← h]
        exact lookupLast_typeKey orig t oe ho

lemma gemini_extras_key (ges : List Explanation) (e : Explanation)
    (he : e ∈ gemini_extras ges) : typeKey e ∉ required_types := by
  unfold gemini_extras at he
  obtain ⟨k, _, hk⟩ := List.mem_filterMap.mp he
  by_cases hmem : k ∈ required_types
  · simp [hmem] at hk
  · simp only [hmem, if_false] at hk
    cases hg : lookupLast ges k with
    | none => simp [hg] at hk
    | some g =>
      simp only [hg] at hk
      cases hk
      have : typeKey g = k := lookupLast_typeKey ges k g hg
      have ht : typeKey
          { explanation_type := some (g.explanation_type.getD "general")
            explanation_text := g.explanation_text
            severity_contribution := some (g.severity_contribution.getD "Low") } = typeKey g := by
        simp [typeKey]
      rw [ht, this]
      exact hmem

lemma canon_part_key (orig ges : List Explanation) (e : Explanation)
    (he : e ∈ required_types.filterMap (pick_canonical orig ges)) :
    typeKey e ∈ required_types := by
  obtain ⟨t, ht, hp⟩ := List.mem_filterMap.mp he
  rw [typeKey_pick orig ges t ht e hp]
  exact ht

lemma filterMap_absent (f : String → Option Explanation) (t : String) :
    ∀ (l : List String), (∀ s ∈ l, ∀ e, f s = some e → typeKey e = s) → t ∉ l →
      (l.filterMap f).filter (fun e => typeKey e == t) = []
  | [], _, _ => rfl
  | a :: l, hf, htl => by
    have hta : t ≠ a := fun hc => htl (hc ▸ List.mem_cons_self a l)
    have ih := filterMap_absent f t l (fun s hs => hf s (List.mem_cons_of_mem a hs))
      (fun hc => htl (List.mem_cons_of_mem a hc))
    cases hfa : f a with
    | none => simpa [List.filterMap_cons, hfa] using ih
    | some e =>
      have hke : typeKey e = a := hf a (List.mem_cons_self a l) e hfa
      have : (typeKey e == t) = false := by
        simp [hke]
        exact fun hc => hta hc.symm
      simp [List.filterMap_cons, hfa, List.filter_cons, this, ih]

lemma filterMap_count_le_one (f : String → Option Explanation) (t : String) :
    ∀ (l : List String), (∀ s ∈ l, ∀ e, f s = some e → typeKey e = s) → l.Nodup →
      ((l.filterMap f).filter (fun e => typeKey e == t)).length ≤ 1
  | [], _, _ => by simp
  | a :: l, hf, hnd => by
    have hal : a ∉ l := (List.nodup_cons.mp hnd).1
    have ih := filterMap_count_le_one f t l (fun s hs => hf s (List.mem_cons_of_mem a hs))
      (List.nodup_cons.mp hnd).2
    cases hfa : f a with
    | none => simpa [List.filterMap_cons, hfa] using ih
    | some e =>
      have hke : typeKey e = a := hf a (List.mem_cons_self a l) e hfa
      by_cases hat : a = t
      · subst hat
        have hrest : (l.filterMap f).filter (fun e => typeKey e == a) = [] :=
          filterMap_absent f a l (fun s hs => hf s (List.mem_cons_of_mem a hs)) hal
        simp [List.filterMap_cons, hfa, List.filter_cons, hke, hrest]
      · have : (typeKey e == t) = false := by
          simp [hke]
          exact hat
        simp [List.filterMap_cons, hfa, List.filter_cons, this]
        exact ih

end GeminiService

/-- C10: whenever the external response contains a non-empty explanations
list, the merged explanation list decomposes as the canonical-type picks
(each entry drawn from the original or the external response, with at most
one entry per canonical type) followed by exactly the external response's
non-canonical entries; consequently any merged entry whose type is outside
the four canonical types comes from the external response, so original
non-canonical explanations are dropped. -/
theorem c10_merge_explanations_structure
    (original : PredictionResult) (refined : RefinedResponse) (ges : List Explanation)
    (hg : refined.explanations = some ges) (hne : ges ≠ []) :
    (GeminiService.merge_results original refined).explanations =
      GeminiService.required_types.filterMap (GeminiService.pick_canonical original.explanations ges)
        ++ GeminiService.gemini_extras ges ∧
    (∀ t ∈ GeminiService.required_types,
      ((GeminiService.merge_results original refined).explanations.filter
          (fun e => GeminiService.typeKey e == t)).length ≤ 1) ∧
    (∀ e ∈ (GeminiService.merge_results original refined).explanations,
      GeminiService.typeKey e ∉ GeminiService.required_types →
        e ∈ GeminiService.gemini_extras ges) := by
  have hdec : (GeminiService.merge_results original refined).explanations =
      GeminiService.required_types.filterMap (GeminiService.pick_canonical original.explanations ges)
        ++ GeminiService.gemini_extras ges := by
    simp [GeminiService.merge_results, hg, hne, GeminiService.merge_explanations]
  refine ⟨hdec, ?_, ?_⟩
  · intro t ht
    rw [hdec, List.filter_append, List.length_append]
    have h1 : ((GeminiService.required_types.filterMap
        (GeminiService.pick_canonical original.explanations ges)).filter
          (fun e => GeminiService.typeKey e == t)).length ≤ 1 :=
      GeminiService.filterMap_count_le_one _ t GeminiService.required_types
        (fun s hs e he => GeminiService.typeKey_pick original.explanations ges s hs e he)
        (by decide)
    have h2 : (GeminiService.gemini_extras ges).filter
        (fun e => GeminiService.typeKey e == t) = [] := by
      rw [List.filter_eq_nil_iff]
      intro e he
      have := GeminiService.gemini_extras_key ges e he
      simp
      exact fun hc => this (hc ▸ ht)
    rw [h2]
    simpa using h1
  · intro e he hout
    rw [hdec] at he
    rcases List.mem_append.mp he with hin | hin
    · exact absurd (GeminiService.canon_part_key original.explanations ges e hin) hout
    · exact hin

/-- A concrete Gemini explanation list with one canonical and one
non-canonical entry. -/
def sampleGes : List Explanation :=
  [{ explanation_type := some "drug_class", explanation_text := some "Class conflict detail."
     severity_contribution := some "High" },
   { explanation_type := some "Monitoring", explanation_text := some "Monitor blood levels."
     severity_contribution := none }]

/-- `emptyRefined` extended with the sample explanation list. -/
def sampleRefinedWithExp : RefinedResponse := { emptyRefined with explanations := some sampleGes }

theorem c10_witness :
    (sampleRefinedWithExp.explanations = some sampleGes ∧ sampleGes ≠ []) ∧
    ((GeminiService.merge_results sampleResult sampleRefinedWithExp).explanations =
      GeminiService.required_types.filterMap (GeminiService.pick_canonical sampleResult.explanations sampleGes)
        ++ GeminiService.gemini_extras sampleGes ∧
    (∀ t ∈ GeminiService.required_types,
      ((GeminiService.merge_results sampleResult sampleRefinedWithExp).explanations.filter
          (fun e => GeminiService.typeKey e == t)).length ≤ 1) ∧
    (∀ e ∈ (GeminiService.merge_results sampleResult sampleRefinedWithExp).explanations,
      GeminiService.typeKey e ∉ GeminiService.required_types →
        e ∈ GeminiService.gemini_extras sampleGes)) :=
  ⟨⟨rfl, by decide⟩, c10_merge_explanations_structure sampleResult sampleRefinedWithExp sampleGes rfl (by decide)⟩

/-! ### C8 -/

/-- C8: for every multi-pair request, the Cross-Pair Aggregator mutates
only text fields (`interaction_summary`, `warnings`, `explanations`,
`recommendations`, `analyzed_drugs`) of the representative (first sorted)
result; its `interaction`, `confidence`, `risk_level` and `severity` — and
also `side_effect_overlap` and `disclaimer` — are unchanged. -/
theorem c8_aggregator_preserves_classification
    (unique_drugs : List String) (numPairs : ℕ)
    (w : Predict.PairResult) (rest : List Predict.PairResult) :
    (Predict.aggregate unique_drugs numPairs (w :: rest)).interaction = w.2.interaction ∧
    (Predict.aggregate unique_drugs numPairs (w :: rest)).confidence = w.2.confidence ∧
    (Predict.aggregate unique_drugs numPairs (w :: rest)).risk_level = w.2.risk_level ∧
    (Predict.aggregate unique_drugs numPairs (w :: rest)).severity = w.2.severity ∧
    (Predict.aggregate unique_drugs numPairs (w :: rest)).side_effect_overlap = w.2.side_effect_overlap ∧
    (Predict.aggregate unique_drugs numPairs (w :: rest)).disclaimer = w.2.disclaimer := by
  unfold Predict.aggregate
  dsimp only
  split_ifs <;> simp

/-! ### C3 -/

namespace Predict

/-- Order-embedding of the sort key into the lexicographic product order. -/
def toLexKey (k : SortKey) : ℕ ×ₗ (ℕ ×ₗ ℚ) := toLex (k.1, toLex (k.2.1, k.2.2))

lemma keyLT_iff (a b : SortKey) : keyLT a b ↔ toLexKey a < toLexKey b := by
  obtain ⟨a1, a2, a3⟩ := a
  obtain ⟨b1, b2, b3⟩ := b
  simp [keyLT, toLexKey, Prod.Lex.lt_iff]

lemma toLexKey_inj (a b : SortKey) (h : toLexKey a = toLexKey b) : a = b := by
  obtain ⟨a1, a2, a3⟩ := a
  obtain ⟨b1, b2, b3⟩ := b
  simp only [toLexKey, toLex_inj, Prod.mk.injEq] at h
  simp [h.1, h.2.1, h.2.2]

lemma toLexKey_eq_iff (a b : SortKey) : toLexKey a = toLexKey b ↔ a = b :=
  ⟨toLexKey_inj a b, fun h => congrArg toLexKey h⟩

lemma keyLE_iff (a b : SortKey) : keyLE a b ↔ toLexKey a ≤ toLexKey b := by
  rw [le_iff_lt_or_eq]
  unfold keyLE
  rw [keyLT_iff, toLexKey_eq_iff]

lemma keyLE_refl (a : SortKey) : keyLE a a := Or.inr rfl

lemma keyLT_irrefl (a : SortKey) : ¬ keyLT a a := by
  rw [keyLT_iff]
  exact lt_irrefl _

lemma keyLE_trans (a b c : SortKey) (h1 : keyLE a b) (h2 : keyLE b c) : keyLE a c := by
  rw [keyLE_iff] at *
  exact le_trans h1 h2

lemma keyLE_antisymm (a b : SortKey) (h1 : keyLE a b) (h2 : keyLE b a) : a = b := by
  rw [keyLE_iff] at h1 h2
  exact toLexKey_inj a b (le_antisymm h1 h2)

lemma keyLE_iff_not_lt (a b : SortKey) : keyLE a b ↔ ¬ keyLT b a := by
  rw [keyLE_iff, keyLT_iff]
  exact not_lt.symm

/-- Elements of `l` sharing the key `k`, in order. -/
def keyFiber (l : List PairResult) (k : SortKey) : List PairResult :=
  l.filter (fun x => decide (keyOf x.2 = k))

lemma specFirstWorst_eq_none_iff (l : List PairResult) : specFirstWorst l = none ↔ l = [] := by
  cases l with
  | nil => simp [specFirstWorst]
  | cons x xs =>
    rw [specFirstWorst]
    constructor
    · intro h
      exfalso
      cases hx : specFirstWorst xs <;> rw [hx] at h <;> dsimp only at h
      · exact Option.noConfusion h
      · split at h <;> exact Option.noConfusion h
    · intro h
      cases h

lemma specFirstWorst_cons_some (x : PairResult) (xs : List PairResult) :
    ∃ m, specFirstWorst (x :: xs) = some m := by
  cases h : specFirstWorst (x :: xs) with
  | none => exact absurd ((specFirstWorst_eq_none_iff _).mp h) (by simp)
  | some m => exact ⟨m, rfl⟩

lemma specFirstWorst_spec :
    ∀ (l : List PairResult) (m : PairResult), specFirstWorst l = some m →
      m ∈ l ∧ (∀ y ∈ l, keyLE (keyOf y.2) (keyOf m.2)) ∧
      (keyFiber l (keyOf m.2)).head? = some m
  | [], m, h => by simp [specFirstWorst] at h
  | x :: xs, m, h => by
    rw [specFirstWorst] at h
    cases hx : specFirstWorst xs with
    | none =>
      rw [hx] at h
      dsimp only at h
      have hxs : xs = [] := (specFirstWorst_eq_none_iff xs).mp hx
      subst hxs
      cases h
      refine ⟨List.mem_singleton_self x, ?_, ?_⟩
      · intro y hy
        rw [List.mem_singleton] at hy
        subst hy
        exact keyLE_refl _
      · simp [keyFiber, List.filter_cons]
    | some m' =>
      rw [hx] at h
      dsimp only at h
      obtain ⟨hmem', hbd', hfib'⟩ := specFirstWorst_spec xs m' hx
      by_cases hlt : keyLT (keyOf x.2) (keyOf m'.2)
      · rw [if_pos hlt] at h
        cases h
        refine ⟨List.mem_cons_of_mem x hmem', ?_, ?_⟩
        · intro y hy
          rcases List.mem_cons.mp hy with rfl | hy'
          · exact Or.inl hlt
          · exact hbd' y hy'
        · have hne : ¬ (keyOf x.2 = keyOf m.2) := by
            intro hc
            rw [hc] at hlt
            exact keyLT_irrefl _ hlt
          simpa [keyFiber, List.filter_cons, hne] using hfib'
      · rw [if_neg hlt] at h
        cases h
        have hge : keyLE (keyOf m'.2) (keyOf x.2) := (keyLE_iff_not_lt _ _).mpr hlt
        refine ⟨List.mem_cons_self x xs, ?_, ?_⟩
        · intro y hy
          rcases List.mem_cons.mp hy with rfl | hy'
          · exact keyLE_refl _
          · exact keyLE_trans _ _ _ (hbd' y hy') hge
        · simp [keyFiber, List.filter_cons]

lemma specFirstWorst_char (l : List PairResult) (m : PairResult)
    (hmem : m ∈ l) (hbd : ∀ y ∈ l, keyLE (keyOf y.2) (keyOf m.2))
    (hfib : (keyFiber l (keyOf m.2)).head? = some m) : specFirstWorst l = some m := by
  cases l with
  | nil => cases hmem
  | cons x xs =>
    obtain ⟨m0, h0⟩ := specFirstWorst_cons_some x xs
    obtain ⟨h0mem, h0bd, h0fib⟩ := specFirstWorst_spec (x :: xs) m0 h0
    have hk : keyOf m0.2 = keyOf m.2 :=
      keyLE_antisymm _ _ (hbd m0 h0mem) (h0bd m hmem)
    rw [hk] at h0fib
    rw [h0fib] at hfib
    rw [h0]
    exact congrArg some (Option.some.inj hfib)

lemma insertionSort_head (l : List PairResult) :
    (List.insertionSort rGE l).head? = specFirstWorst l := by
  induction l with
  | nil => rfl
  | cons x xs ih =>
    rw [List.insertionSort]
    cases hs : List.insertionSort rGE xs with
    | nil =>
      have hxs : xs = [] := by
        have hlen := List.length_insertionSort rGE xs
        rw [hs] at hlen
        exact List.eq_nil_of_length_eq_zero hlen.symm
      subst hxs
      simp [List.orderedInsert, specFirstWorst]
    | cons m rest =>
      have hm : specFirstWorst xs = some m := by
        rw [← ih, hs]
        rfl
      simp only [List.orderedInsert]
      rw [specFirstWorst, hm]
      dsimp only
      by_cases h : keyLT (keyOf x.2) (keyOf m.2)
      · have hr : ¬ rGE x m := fun hc => ((keyLE_iff_not_lt _ _).mp hc) h
        rw [if_neg hr, if_pos h]
        rfl
      · have hr : rGE x m := (keyLE_iff_not_lt _ _).mpr h
        rw [if_pos hr, if_neg h]
        rfl

end Predict

/-- C3: the Worst-Case Selector orders per-pair results descending by the
key (interaction "Yes" first, then risk rank High 3 / Moderate 2 / Low 1 /
otherwise 0, then higher confidence), stably, so the representative is the
first input element of maximal key (first pair wins ties); consequently the
chosen result is invariant under any rearrangement of the input that
preserves the relative order of equal-key elements. -/
theorem c3_worst_case_selector (l1 l2 : List Predict.PairResult) (h1 : l1 ≠ [])
    (hfib : ∀ k : Predict.SortKey, Predict.keyFiber l1 k = Predict.keyFiber l2 k) :
    Predict.worst_case_of l1 = Predict.worst_case_of l2 ∧
    Predict.worst_case_of l1 = Predict.specFirstWorst l1 := by
  have e1 : Predict.worst_case_of l1 = Predict.specFirstWorst l1 := Predict.insertionSort_head l1
  have e2 : Predict.worst_case_of l2 = Predict.specFirstWorst l2 := Predict.insertionSort_head l2
  refine ⟨?_, e1⟩
  rw [e1, e2]
  have hex : ∃ m, Predict.specFirstWorst l1 = some m := by
    cases hl : l1 with
    | nil => exact absurd hl h1
    | cons x xs => exact Predict.specFirstWorst_cons_some x xs
  obtain ⟨m, hm⟩ := hex
  obtain ⟨hmem, hbd, hf⟩ := Predict.specFirstWorst_spec l1 m hm
  have hmem2 : m ∈ l2 := by
    have hmf : m ∈ Predict.keyFiber l1 (Predict.keyOf m.2) := by
      unfold Predict.keyFiber
      rw [List.mem_filter]
      exact ⟨hmem, by simp⟩
    rw [hfib] at hmf
    exact (List.mem_filter.mp hmf).1
  have hbd2 : ∀ y ∈ l2, Predict.keyLE (Predict.keyOf y.2) (Predict.keyOf m.2) := by
    intro y hy
    have hyf : y ∈ Predict.keyFiber l2 (Predict.keyOf y.2) := by
      unfold Predict.keyFiber
      rw [List.mem_filter]
      exact ⟨hy, by simp⟩
    rw [← hfib] at hyf
    exact hbd y (List.mem_filter.mp hyf).1
  have hf2 : (Predict.keyFiber l2 (Predict.keyOf m.2)).head? = some m := by
    rw [← hfib]
    exact hf
  rw [hm]
  exact (Predict.specFirstWorst_char l2 m hmem2 hbd2 hf2).symm

/-- Concrete pair results for witnesses. -/
def samplePair1 : Predict.PairResult := (("Aspirin", "Warfarin"), sampleResult)

def samplePair2 : Predict.PairResult :=
  (("Aspirin", "Metformin"), { sampleResult with interaction := "No", risk_level := "Low", confidence := 0 })

theorem c3_witness :
    ([samplePair1, samplePair2] ≠ ([] : List Predict.PairResult)) ∧
    (Predict.worst_case_of [samplePair1, samplePair2] = Predict.worst_case_of [samplePair1, samplePair2] ∧
     Predict.worst_case_of [samplePair1, samplePair2] = Predict.specFirstWorst [samplePair1, samplePair2]) :=
  ⟨by simp,
   c3_worst_case_selector [samplePair1, samplePair2] [samplePair1, samplePair2] (by simp) (fun k => rfl)⟩

/-! ### C9 -/

namespace Predict

lemma combinations2_length : ∀ (l : List String), (combinations2 l).length = l.length.choose 2
  | [] => rfl
  | x :: xs => by
    simp only [combinations2, List.length_append, List.length_map,
      combinations2_length xs, List.length_cons]
    rw [Nat.choose_succ_succ, Nat.choose_one_right]

lemma firstOccs_props : ∀ (l seen : List String),
    (firstOccs l seen).Nodup ∧ ∀ x ∈ firstOccs l seen, x ∉ seen
  | [], seen => ⟨List.nodup_nil, by simp [firstOccs]⟩
  | k :: ks, seen => by
    by_cases hk : k ∈ seen
    · simpa [firstOccs, hk] using firstOccs_props ks seen
    · obtain ⟨hnd, hni⟩ := firstOccs_props ks (k :: seen)
      simp only [firstOccs, hk, if_false]
      constructor
      · rw [List.nodup_cons]
        exact ⟨fun hc => (hni k hc) (List.mem_cons_self k seen), hnd⟩
      · intro x hx
        rcases List.mem_cons.mp hx with rfl | hx'
        · exact hk
        · exact fun hc => (hni x hx') (List.mem_cons_of_mem k hc)

lemma unique_sorted_nodup (input : List (Option String)) : (unique_sorted input).Nodup := by
  unfold unique_sorted
  exact ((List.perm_insertionSort strLe _).symm).nodup (firstOccs_props _ _).1

lemma combinations2_distinct : ∀ (l : List String), l.Nodup → ∀ p ∈ combinations2 l, p.1 ≠ p.2
  | [], _, p, hp => by simp [combinations2] at hp
  | x :: xs, hnd, p, hp => by
    simp only [combinations2] at hp
    rcases List.mem_append.mp hp with hin | hin
    · obtain ⟨y, hy, hxy⟩ := List.mem_map.mp hin
      subst hxy
      intro hc
      have hxy' : x = y := hc
      exact (List.nodup_cons.mp hnd).1 (by rw [hxy']; exact hy)
    · exact combinations2_distinct xs (List.nodup_cons.mp hnd).2 p hin

end Predict

/-- C9: for every request whose unique sorted drug list has N names,
2 ≤ N ≤ 5, the Pairwise Expander generates exactly N·(N−1)/2 candidate
pairs from the sorted unique names, each pair consisting of two distinct
names. -/
theorem c9_pairwise_expander (input : List (Option String)) (N : ℕ)
    (hN : (Predict.unique_sorted input).length = N) (h2 : 2 ≤ N) (h5 : N ≤ 5) :
    (Predict.combinations2 (Predict.unique_sorted input)).length = N * (N - 1) / 2 ∧
    ∀ p ∈ Predict.combinations2 (Predict.unique_sorted input), p.1 ≠ p.2 := by
  constructor
  · rw [Predict.combinations2_length, hN, Nat.choose_two_right]
  · exact Predict.combinations2_distinct _ (Predict.unique_sorted_nodup input)

/-- The sample 3-drug request. -/
def sampleInput3 : List (Option String) :=
  [some "Aspirin", some "Warfarin", some "Metformin", none, none]

theorem c9_witness :
    ((Predict.unique_sorted sampleInput3).length = 3 ∧ 2 ≤ 3 ∧ 3 ≤ 5) ∧
    ((Predict.combinations2 (Predict.unique_sorted sampleInput3)).length = 3 * (3 - 1) / 2 ∧
     ∀ p ∈ Predict.combinations2 (Predict.unique_sorted sampleInput3), p.1 ≠ p.2) :=
  ⟨⟨by decide, by decide, by decide⟩,
   c9_pairwise_expander sampleInput3 3 (by decide) (by decide) (by decide)⟩

/-! ### C4 -/

/-- A classifier stub that always succeeds. -/
def okP : String → String → Except String PredictionResult := fun _ _ => Except.ok sampleResult

/-- A classifier stub that always raises. -/
def failP : String → String → Except String PredictionResult := fun _ _ => Except.error "boom"

namespace Predict

/-- `analyze` with its let-bindings unfolded. -/
lemma analyze_eq (P : String → String → Except String PredictionResult)
    (input : List (Option String)) :
    analyze P input =
      if (unique_sorted input).length < 2 then Except.error AnalyzeError.insufficientDrugs
      else
        match collect_results P (combinations2 (unique_sorted input)) with
        | .error e => .error (.internal e)
        | .ok [] => .error .noValidPairs
        | .ok [single] => .ok single.2
        | .ok (r1 :: r2 :: rs) =>
            .ok (aggregate (unique_sorted input) (combinations2 (unique_sorted input)).length
                  (List.insertionSort rGE (r1 :: r2 :: rs))) := rfl

end Predict

/-- C4 counterexample: the route deduplicates by exact string, not by
normalized form.  For drugs ["X", "x"] the normalized forms coincide (one
unique normalized name), yet the operation fails with the
"No valid drug pairs" error rather than `InsufficientDrugsError`. -/
theorem c4_counterexample :
    Predict.analyze okP [some "X", some "x", none, none, none] =
      Except.error Predict.AnalyzeError.noValidPairs ∧
    Preprocess.normalize_drug_name "X" = Preprocess.normalize_drug_name "x" ∧
    Predict.analyze okP [some "X", some "x", none, none, none] ≠
      Except.error Predict.AnalyzeError.insufficientDrugs := by
  have h1 : Predict.analyze okP [some "X", some "x", none, none, none] =
      Except.error Predict.AnalyzeError.noValidPairs := rfl
  refine ⟨h1, by decide, ?_⟩
  rw [h1]
  intro hc
  injection hc with hc'
  cases hc'

/-- C4 amended: the analyze operation filters out blank/whitespace-only
entries and deduplicates by **exact string equality**; it fails with
`InsufficientDrugsError` exactly when fewer than 2 unique exact strings
remain.  In particular for input ["X","X"," "] it fails with
`InsufficientDrugsError` (names differing only in case survive dedup and
fail pair validation instead, yielding `NoValidPairsError`). -/
theorem c4_dedup_exact :
    (∀ (P : String → String → Except String PredictionResult) (input : List (Option String)),
      Predict.analyze P input = Except.error Predict.AnalyzeError.insufficientDrugs ↔
        (Predict.unique_sorted input).length < 2) ∧
    ∀ (P : String → String → Except String PredictionResult),
      Predict.analyze P [some "X", some "X", some " ", none, none] =
        Except.error Predict.AnalyzeError.insufficientDrugs := by
  constructor
  · intro P input
    rw [Predict.analyze_eq]
    by_cases h : (Predict.unique_sorted input).length < 2
    · simp [h]
    · rw [if_neg h]
      constructor
      · intro hc
        rcases hcr : Predict.collect_results P
            (Predict.combinations2 (Predict.unique_sorted input)) with e | rs
        · rw [hcr] at hc
          dsimp only at hc
          injection hc with hc'
          cases hc'
        · rw [hcr] at hc
          match rs, hc with
          | [], hc => dsimp only at hc; injection hc with hc'; cases hc'
          | [single], hc => dsimp only at hc; cases hc
          | r1 :: r2 :: rest, hc => dsimp only at hc; cases hc
      · intro hc
        exact absurd hc h
  · intro P
    rfl

/-! ### C5 -/

namespace Predict

lemma collect_ok_nil_iff (P : String → String → Except String PredictionResult) :
    ∀ (ps : List (String × String)),
      collect_results P ps = Except.ok [] ↔
        ∀ p ∈ ps, Preprocess.validate_drug_input p.1 p.2 = false
  | [] => by simp [collect_results]
  | (d1, d2) :: rest => by
    by_cases hv : Preprocess.validate_drug_input d1 d2 = true
    · simp only [collect_results, hv, if_true]
      cases hp : P d1 d2 with
      | error e =>
        simp only []
        constructor
        · intro hc
          cases hc
        · intro hall
          exact absurd hv (by simpa using hall (d1, d2) (List.mem_cons_self _ _))
      | ok r =>
        cases hcr : collect_results P rest with
        | error e =>
          simp only []
          constructor
          · intro hc
            cases hc
          · intro hall
            exact absurd hv (by simpa using hall (d1, d2) (List.mem_cons_self _ _))
        | ok rs =>
          simp only []
          constructor
          · intro hc
            cases hc
          · intro hall
            exact absurd hv (by simpa using hall (d1, d2) (List.mem_cons_self _ _))
    · have hv' : Preprocess.validate_drug_input d1 d2 = false := by
        simpa using hv
      simp only [collect_results, hv', if_false, Bool.false_eq_true]
      rw [collect_ok_nil_iff P rest]
      constructor
      · intro hall p hp
        rcases List.mem_cons.mp hp with rfl | hp'
        · exact hv'
        · exact hall p hp'
      · intro hall p hp
        exact hall p (List.mem_cons_of_mem _ hp)

lemma collect_error_of_all_error (P : String → String → Except String PredictionResult)
    (e : String) (hP : ∀ a b, P a b = Except.error e) :
    ∀ (ps : List (String × String)),
      (∃ p ∈ ps, Preprocess.validate_drug_input p.1 p.2 = true) →
      collect_results P ps = Except.error e
  | [], hex => by simp at hex
  | (d1, d2) :: rest, hex => by
    by_cases hv : Preprocess.validate_drug_input d1 d2 = true
    · simp only [collect_results, hv, if_true, hP d1 d2]
    · have hv' : Preprocess.validate_drug_input d1 d2 = false := by simpa using hv
      simp only [collect_results, hv', if_false, Bool.false_eq_true]
      apply collect_error_of_all_error P e hP rest
      obtain ⟨p, hp, hpv⟩ := hex
      rcases List.mem_cons.mp hp with rfl | hp'
      · exact absurd hpv hv
      · exact ⟨p, hp', hpv⟩

end Predict

/-- C5 counterexample: a classifier error on a (valid) pair is not caught
per pair — it aborts the whole analyze operation as an unhandled internal
error instead of dropping the pair or producing `NoValidPairsError`. -/
theorem c5_counterexample :
    Predict.analyze failP [some "aspirin", some "warfarin", none, none, none] =
      Except.error (Predict.AnalyzeError.internal "boom") := rfl

/-- C5 amended: a pair failing syntactic validation is silently dropped,
and `NoValidPairsError` arises exactly when every candidate pair fails
validation — but an error raised by the per-pair classifier is not caught:
it propagates out of the analyze operation as an unhandled internal error,
aborting the remaining pairs. -/
theorem c5_classifier_error_propagates
    (P : String → String → Except String PredictionResult)
    (input : List (Option String)) (e : String)
    (h2 : 2 ≤ (Predict.unique_sorted input).length) :
    (Predict.analyze P input = Except.error Predict.AnalyzeError.noValidPairs ↔
      ∀ p ∈ Predict.combinations2 (Predict.unique_sorted input),
        Preprocess.validate_drug_input p.1 p.2 = false) ∧
    ((∀ a b, P a b = Except.error e) →
      (∃ p ∈ Predict.combinations2 (Predict.unique_sorted input),
        Preprocess.validate_drug_input p.1 p.2 = true) →
      Predict.analyze P input = Except.error (Predict.AnalyzeError.internal e)) := by
  have hnl : ¬ (Predict.unique_sorted input).length < 2 := by omega
  constructor
  · rw [Predict.analyze_eq, if_neg hnl, ← Predict.collect_ok_nil_iff P]
    rcases hcr : Predict.collect_results P
        (Predict.combinations2 (Predict.unique_sorted input)) with e' | rs
    · dsimp only
      constructor
      · intro hc
        injection hc with hc'
        cases hc'
      · intro hc
        cases hc
    · match rs with
      | [] => simp
      | [single] =>
        dsimp only
        constructor
        · intro hc
          cases hc
        · intro hc
          cases hc
      | r1 :: r2 :: rest =>
        dsimp only
        constructor
        · intro hc
          cases hc
        · intro hc
          cases hc
  · intro hP hex
    rw [Predict.analyze_eq, if_neg hnl,
      Predict.collect_error_of_all_error P e hP _ hex]

theorem c5_witness :
    2 ≤ (Predict.unique_sorted [some "aspirin", some "warfarin", none, none, none]).length ∧
    ((Predict.analyze failP [some "aspirin", some "warfarin", none, none, none] =
        Except.error Predict.AnalyzeError.noValidPairs ↔
      ∀ p ∈ Predict.combinations2
          (Predict.unique_sorted [some "aspirin", some "warfarin", none, none, none]),
        Preprocess.validate_drug_input p.1 p.2 = false) ∧
    ((∀ a b, failP a b = Except.error "boom") →
      (∃ p ∈ Predict.combinations2
          (Predict.unique_sorted [some "aspirin", some "warfarin", none, none, none]),
        Preprocess.validate_drug_input p.1 p.2 = true) →
      Predict.analyze failP [some "aspirin", some "warfarin", none, none, none] =
        Except.error (Predict.AnalyzeError.internal "boom"))) :=
  ⟨by decide,
   c5_classifier_error_propagates failP [some "aspirin", some "warfarin", none, none, none]
     "boom" (by decide)⟩
